import Mathlib

/-!
A shallow embedding of the MSP (MultiWii Serial Protocol) framing and
transport engine of `src/fc.py` (class `FlightController`), together with
theorems checking the specification's claims about it.

Conventions of the embedding:
* machine bytes are `Nat`s; where Python's `bytes(...)` conversion can fail
  (a value outside `0..255`) the embedded operation returns `Option`;
* the UART receive stream is a function `arr : Nat → List Nat` giving the
  full sequence of bytes that have arrived by tick `t` (milliseconds); the
  number of consumed bytes is threaded explicitly, so `uart.any()` at time
  `t` with `pos` bytes already consumed is `(arr t).length - pos`;
* `time.ticks_ms`/`time.ticks_diff` are exact natural-number time,
  `time.sleep_ms(10)` advances the clock by exactly 10; reads themselves
  are instantaneous;
* Python's `struct` little-endian fields are composed from byte values with
  `u16le`/`u32le`; the float `vbat / 10.0` of `get_analog` is modelled as
  an exact rational (at the spec's test point `25 / 10.0` the float value
  is exact, so the models agree there).
-/

namespace DroneMsp

/-- MSP command code `MSP_STATUS_EX = 150` from `fc.py`. -/
def MSP_STATUS_EX : Nat := 150

/-- MSP command code `MSP_ANALOG = 110` from `fc.py`. -/
def MSP_ANALOG : Nat := 110

/-- MSP command code `MSP_MOTOR = 104` from `fc.py`. -/
def MSP_MOTOR : Nat := 104

/-- MSP command code `MSP_SET_RAW_RC = 200` from `fc.py`. -/
def MSP_SET_RAW_RC : Nat := 200

/-- The checksum loop of `_send_msp_request`:
`checksum = 0; for byte in frame[3:]: checksum ^= byte`, where `frame[3:]`
is `size :: command :: payload`. -/
def mspChecksum (sizeCmdPayload : List Nat) : Nat :=
  sizeCmdPayload.foldl Nat.xor 0

/-- The frame list built by `_send_msp_request`:
`[ord('$'), ord('M'), ord('<'), size, command] + list(payload)` with the
checksum appended (`$` = 36, `M` = 77, `<` = 60). -/
def requestFrame (command : Nat) (payload : List Nat) : List Nat :=
  [36, 77, 60, payload.length, command] ++ payload ++
    [mspChecksum (payload.length :: command :: payload)]

/-- `_send_msp_request`: builds the frame and converts it with
`bytes(frame)` before writing.  `bytes` raises `ValueError` on any element
outside `0..255`, in which case nothing is written; that failure is
modelled as `none`. -/
def send_msp_request (command : Nat) (payload : List Nat) : Option (List Nat) :=
  if (requestFrame command payload).all (fun b => b < 256) then
    some (requestFrame command payload)
  else none

/-- One polling loop of `_read_msp_response`:
`while <avail> < need and time.ticks_diff(time.ticks_ms(), start_time) < 500:
time.sleep_ms(10)`.  `avail t` is the value `self.uart.any()` would return
at tick `t`; the function returns the tick at which the loop exits. -/
def waitLoop (avail : Nat → Nat) (need start t : Nat) : Nat :=
  if h : avail t < need ∧ t - start < 500 then
    waitLoop avail need start (t + 10)
  else t
termination_by 500 + start - t
decreasing_by
  omega

/-- `self.uart.any()` at tick `t` after `pos` bytes have been consumed. -/
def availAt (arr : Nat → List Nat) (pos t : Nat) : Nat :=
  (arr t).length - pos

/-- Exit tick of the first wait of `_read_msp_response` (wait for the
3 header bytes); the single `start_time` is taken here. -/
def headerWaitT (arr : Nat → List Nat) (start : Nat) : Nat :=
  waitLoop (availAt arr 0) 3 start start

/-- Exit tick of the second wait (size and command bytes); note it
re-checks elapsed time against the same `start_time`. -/
def sizeCmdWaitT (arr : Nat → List Nat) (start : Nat) : Nat :=
  waitLoop (availAt arr 3) 2 start (headerWaitT arr start)

/-- Exit tick of the third wait (payload plus checksum, `need` bytes);
again bounded by the same `start_time`. -/
def payloadWaitT (arr : Nat → List Nat) (start need : Nat) : Nat :=
  waitLoop (availAt arr 5) need start (sizeCmdWaitT arr start)

/-- `_read_msp_response`.  Returns `(result, exit tick, consumed bytes)`:
`result` is `some (command, payload)` on success and `none` where the
Python returns `None, None`; `consumed` counts the bytes read off the
stream (including the drain of the bad-header branch). -/
def read_msp_response (arr : Nat → List Nat) (start : Nat) :
    Option (Nat × List Nat) × Nat × Nat :=
  let t1 := headerWaitT arr start
  if (arr t1).length < 3 then (none, t1, 0)
  else
    let header := (arr t1).take 3
    if header ≠ [36, 77, 62] then
      (none, t1, (arr t1).length)
    else
      let t2 := sizeCmdWaitT arr start
      if (arr t2).length - 3 < 2 then (none, t2, 3)
      else
        let size := (arr t2).getD 3 0
        let command := (arr t2).getD 4 0
        let t3 := payloadWaitT arr start (size + 1)
        if (arr t3).length - 5 < size + 1 then (none, t3, 5)
        else
          let payload := ((arr t3).drop 5).take size
          let checksum := (arr t3).getD (5 + size) 0
          let calculated := payload.foldl Nat.xor (Nat.xor size command)
          if calculated ≠ checksum then (none, t3, 6 + size)
          else (some (command, payload), t3, 6 + size)

/-- `struct.unpack('<H', ...)`: a little-endian 16-bit value from two bytes. -/
def u16le (b0 b1 : Nat) : Nat := b0 + 256 * b1

/-- `struct.unpack('<I', ...)`: a little-endian 32-bit value from four bytes. -/
def u32le (b0 b1 b2 b3 : Nat) : Nat :=
  b0 + 256 * b1 + 65536 * b2 + 16777216 * b3

/-- The record built by `get_status` (plus the intermediate unpacked
fields, so the layout can be stated). -/
structure MspStatus where
  cycle_time : Nat
  i2c_errors : Nat
  sensors : Nat
  flags : Nat
  profile : Nat
  cpuload : Nat
  is_armed : Bool
  arming_disable_flags : Nat
  disable_reasons : List String
deriving DecidableEq, Repr

/-- The 27 named arming-disable bits of `get_status`, in the order the
code tests them (`bit 0 = NO_GYRO` … `bit 26 = ARM_SWITCH`). -/
def disableReasonBits : List (Nat × String) :=
  [(0, "NO_GYRO"), (1, "FAILSAFE"), (2, "RX_FAILSAFE"), (3, "BAD_RX_RECOVERY"),
   (4, "BOXFAILSAFE"), (5, "RUNAWAY_TAKEOFF"), (6, "CRASH_DETECTED"),
   (7, "THROTTLE"), (8, "ANGLE"), (9, "BOOT_GRACE_TIME"), (10, "NOPREARM"),
   (11, "LOAD"), (12, "CALIBRATING"), (13, "CLI"), (14, "CMS_MENU"),
   (15, "OSD_MENU"), (16, "BST"), (17, "MSP"), (18, "PARALYZE"), (19, "GPS"),
   (20, "RESC"), (21, "RPMFILTER"), (22, "REBOOT_REQD"), (23, "DSHOT_BBANG"),
   (24, "NO_ACC_CAL"), (25, "MOTOR_PROTO"), (26, "ARM_SWITCH")]

/-- The chain of `if arming_disable_flags & (1 << k): disable_reasons.append(...)`
statements of `get_status`, which appends the names of the set bits in
ascending bit order. -/
def disableReasons (flags : Nat) : List String :=
  (disableReasonBits.filter (fun pr => flags.testBit pr.1)).map Prod.snd

/-- The payload parser of `get_status`: `struct.unpack('<HHIIBH', data[:15])`
(`calcsize('<HHIIBH') = 15`), with the optional trailing
`struct.unpack('<I', data[15:19])` read only when `len(data) >= 19`
(defaulting `arming_disable_flags` to 0), `is_armed = bool(flags & 1)` and
the bit-by-bit disable-reason decoding.  A payload shorter than 15 bytes
returns `None`. -/
def statusDecode (data : List Nat) : Option MspStatus :=
  if data.length < 15 then none
  else
    let fl := u32le (data.getD 8 0) (data.getD 9 0) (data.getD 10 0) (data.getD 11 0)
    let adf := if 19 ≤ data.length then
        u32le (data.getD 15 0) (data.getD 16 0) (data.getD 17 0) (data.getD 18 0)
      else 0
    some { cycle_time := u16le (data.getD 0 0) (data.getD 1 0)
           i2c_errors := u16le (data.getD 2 0) (data.getD 3 0)
           sensors := u32le (data.getD 4 0) (data.getD 5 0) (data.getD 6 0) (data.getD 7 0)
           flags := fl
           profile := data.getD 12 0
           cpuload := u16le (data.getD 13 0) (data.getD 14 0)
           is_armed := fl.land 1 != 0
           arming_disable_flags := adf
           disable_reasons := disableReasons adf }

/-- Modelled from the spec: the claim gives the status prefix field widths
as `cycle_time:u16, i2c_errors:u32, sensors:u32, flags:u32, profile:u8,
cpuload:u16` (so `i2c_errors` spans offsets 2–5 and the later fields are
shifted), while still calling it a 15-byte prefix; this definition follows
those words so it can be compared against the code's `statusDecode`. -/
def statusDecodeSpecLayout (data : List Nat) : Option MspStatus :=
  if data.length < 15 then none
  else
    let fl := u32le (data.getD 10 0) (data.getD 11 0) (data.getD 12 0) (data.getD 13 0)
    let adf := if 19 ≤ data.length then
        u32le (data.getD 17 0) (data.getD 18 0) (data.getD 19 0) (data.getD 20 0)
      else 0
    some { cycle_time := u16le (data.getD 0 0) (data.getD 1 0)
           i2c_errors := u32le (data.getD 2 0) (data.getD 3 0) (data.getD 4 0) (data.getD 5 0)
           sensors := u32le (data.getD 6 0) (data.getD 7 0) (data.getD 8 0) (data.getD 9 0)
           flags := fl
           profile := data.getD 14 0
           cpuload := u16le (data.getD 15 0) (data.getD 16 0)
           is_armed := fl.land 1 != 0
           arming_disable_flags := adf
           disable_reasons := disableReasons adf }

/-- The guard and parse of `get_status` applied to the reader's result:
`command, data = self._read_msp_response();
if command != self.MSP_STATUS_EX or not data: return None`, then the
payload parse.  `none` for the reader result models the `None, None` case. -/
def get_status_from (r : Option (Nat × List Nat)) : Option MspStatus :=
  match r with
  | none => none
  | some (c, d) => if c ≠ MSP_STATUS_EX ∨ d = [] then none else statusDecode d

/-- The record built by `get_analog`; `voltage` is `vbat_raw / 10.0`,
modelled as an exact rational. -/
structure MspAnalog where
  voltage : ℚ
  rssi : Nat
  amperage : Nat
deriving DecidableEq, Repr

/-- The guard and parse of `get_analog`:
`if command != self.MSP_ANALOG or not data: return None`, then
`struct.unpack('<BHHH', data[:7])` (which raises, hence `None`, when
fewer than 7 bytes are present), `voltage = vbat_raw / 10.0`. -/
def get_analog_from (r : Option (Nat × List Nat)) : Option MspAnalog :=
  match r with
  | none => none
  | some (c, d) =>
    if c ≠ MSP_ANALOG ∨ d = [] then none
    else if d.length < 7 then none
    else some { voltage := (d.getD 0 0 : ℚ) / 10
                rssi := u16le (d.getD 3 0) (d.getD 4 0)
                amperage := u16le (d.getD 5 0) (d.getD 6 0) }

/-- The value extraction of `struct.unpack(f'<{n}H', data)`: consecutive
little-endian 16-bit values in wire order. -/
def chunksU16 : List Nat → List Nat
  | b0 :: b1 :: rest => u16le b0 b1 :: chunksU16 rest
  | _ => []

/-- The guard and parse of `get_motors`:
`if command != self.MSP_MOTOR or not data: return None`, then
`struct.unpack(f'<{len(data)//2}H', data)`, which raises (hence `None`)
unless `len(data)` is exactly `2 * (len(data)//2)`, i.e. even. -/
def get_motors_from (r : Option (Nat × List Nat)) : Option (List Nat) :=
  match r with
  | none => none
  | some (c, d) =>
    if c ≠ MSP_MOTOR ∨ d = [] then none
    else if d.length % 2 = 0 then some (chunksU16 d) else none

/-- `struct.pack('<H', v)`: the two little-endian bytes of a 16-bit value. -/
def packU16 (v : Nat) : List Nat := [v % 256, v / 256]

/-- `struct.pack(f'<{len(vals)}H', *vals)`: fails (raises) if a value does
not fit in 16 bits. -/
def packU16s (vals : List Nat) : Option (List Nat) :=
  if vals.all (fun v => v < 65536) then some (vals.flatMap packU16) else none

/-- The payload construction of `set_rc_channels`:
`if len(channels) > 18: channels = channels[:18]` followed by
`struct.pack(f'<{len(channels)}H', *channels)`. -/
def set_rc_channels_payload (channels : List Nat) : Option (List Nat) :=
  packU16s (if 18 < channels.length then channels.take 18 else channels)

/-! ### Helper lemmas -/

/-- A wait loop exits immediately when its guard fails. -/
theorem waitLoop_exit (avail : Nat → Nat) (need start t : Nat)
    (h : ¬(avail t < need ∧ t - start < 500)) : waitLoop avail need start t = t := by
  rw [waitLoop]
  simp [h]

/-- A wait loop exits immediately when enough bytes are already buffered. -/
theorem waitLoop_of_avail (avail : Nat → Nat) (need start t : Nat)
    (h : need ≤ avail t) : waitLoop avail need start t = t :=
  waitLoop_exit avail need start t (by omega)

/-- A wait loop takes one step while its guard holds. -/
theorem waitLoop_step (avail : Nat → Nat) (need start t : Nat)
    (h : avail t < need ∧ t - start < 500) :
    waitLoop avail need start t = waitLoop avail need start (t + 10) := by
  rw [waitLoop]
  simp [h]

/-- Fuel-indexed invariant of a wait loop: started at a tick that is at
most `start + 500` and a multiple of 10 past `start`, it exits at such a
tick as well — in particular never later than `start + 500`. -/
theorem waitLoop_bounds_aux (avail : Nat → Nat) (need start : Nat) :
    ∀ m t, start + 500 - t ≤ m → start ≤ t → t ≤ start + 500 → 10 ∣ (t - start) →
      start ≤ waitLoop avail need start t ∧ waitLoop avail need start t ≤ start + 500 ∧
        10 ∣ (waitLoop avail need start t - start) := by
  intro m
  induction m with
  | zero =>
    intro t hm h1 h2 h3
    have ht : t = start + 500 := by omega
    rw [waitLoop_exit avail need start t (by omega)]
    exact ⟨h1, h2, h3⟩
  | succ m ih =>
    intro t hm h1 h2 h3
    by_cases hg : avail t < need ∧ t - start < 500
    · rw [waitLoop_step avail need start t hg]
      obtain ⟨k, hk⟩ := h3
      have hk10 : t - start ≤ 490 := by omega
      exact ih (t + 10) (by omega) (by omega) (by omega) ⟨k + 1, by omega⟩
    · rw [waitLoop_exit avail need start t hg]
      exact ⟨h1, h2, h3⟩

/-- A wait loop started within the deadline window, at a multiple of 10
ticks past `start`, exits within the window. -/
theorem waitLoop_bounds (avail : Nat → Nat) (need start t : Nat)
    (h1 : start ≤ t) (h2 : t ≤ start + 500) (h3 : 10 ∣ (t - start)) :
    start ≤ waitLoop avail need start t ∧ waitLoop avail need start t ≤ start + 500 ∧
      10 ∣ (waitLoop avail need start t - start) :=
  waitLoop_bounds_aux avail need start (start + 500 - t) t (Nat.le_refl _) h1 h2 h3

/-- The first wait of the reader exits within the 500 ms window. -/
theorem headerWaitT_bounds (arr : Nat → List Nat) (start : Nat) :
    start ≤ headerWaitT arr start ∧ headerWaitT arr start ≤ start + 500 ∧
      10 ∣ (headerWaitT arr start - start) :=
  waitLoop_bounds _ 3 start start (Nat.le_refl _) (by omega) (by simp)

/-- The second wait of the reader exits within the same 500 ms window. -/
theorem sizeCmdWaitT_bounds (arr : Nat → List Nat) (start : Nat) :
    start ≤ sizeCmdWaitT arr start ∧ sizeCmdWaitT arr start ≤ start + 500 ∧
      10 ∣ (sizeCmdWaitT arr start - start) := by
  obtain ⟨h1, h2, h3⟩ := headerWaitT_bounds arr start
  exact waitLoop_bounds _ 2 start _ h1 h2 h3

/-- The third wait of the reader exits within the same 500 ms window. -/
theorem payloadWaitT_bounds (arr : Nat → List Nat) (start need : Nat) :
    start ≤ payloadWaitT arr start need ∧ payloadWaitT arr start need ≤ start + 500 ∧
      10 ∣ (payloadWaitT arr start need - start) := by
  obtain ⟨h1, h2, h3⟩ := sizeCmdWaitT_bounds arr start
  exact waitLoop_bounds _ need start _ h1 h2 h3

/-- XOR distributes over the start value of an XOR fold. -/
theorem foldl_xor_shift (l : List Nat) :
    ∀ a m : Nat, l.foldl Nat.xor (a ^^^ m) = l.foldl Nat.xor a ^^^ m := by
  induction l with
  | nil => intro a m; rfl
  | cons x r ih =>
    intro a m
    have hx : (a ^^^ m) ^^^ x = (a ^^^ x) ^^^ m := by
      rw [Nat.xor_assoc, Nat.xor_comm m x, ← Nat.xor_assoc]
    simp only [List.foldl_cons]
    rw [show Nat.xor (a ^^^ m) x = (a ^^^ m) ^^^ x from rfl, hx]
    exact ih (a ^^^ x) m

/-- XOR-ing one list element with a mask XORs the whole fold with it. -/
theorem foldl_xor_set (l : List Nat) :
    ∀ i a m : Nat, i < l.length →
      (l.set i (l.getD i 0 ^^^ m)).foldl Nat.xor a = l.foldl Nat.xor a ^^^ m := by
  induction l with
  | nil => intro i a m h; simp at h
  | cons x r ih =>
    intro i a m h
    cases i with
    | zero =>
      simp only [List.getD_cons_zero, List.set_cons_zero, List.foldl_cons]
      show List.foldl Nat.xor (a ^^^ (x ^^^ m)) r = List.foldl Nat.xor (Nat.xor a x) r ^^^ m
      rw [← Nat.xor_assoc]
      exact foldl_xor_shift r (a ^^^ x) m
    | succ i =>
      simp only [List.getD_cons_succ, List.set_cons_succ, List.foldl_cons]
      exact ih i (Nat.xor a x) m (by simpa using h)

/-- XOR with a nonzero mask changes the value. -/
theorem xor_ne_self (a m : Nat) (hm : m ≠ 0) : a ^^^ m ≠ a := by
  intro h
  apply hm
  have h2 : a ^^^ (a ^^^ m) = a ^^^ a := by rw [h]
  rwa [← Nat.xor_assoc, Nat.xor_self, Nat.zero_xor] at h2

/-- An XOR fold of bytes starting from a byte stays a byte. -/
theorem foldl_xor_lt_256 (l : List Nat) :
    ∀ a : Nat, a < 256 → (∀ b ∈ l, b < 256) → l.foldl Nat.xor a < 256 := by
  induction l with
  | nil => intro a ha _; simpa using ha
  | cons x r ih =>
    intro a ha hb
    have hx : x < 256 := hb x (by simp)
    have hax : a ^^^ x < 256 := by
      have h8 : a < 2 ^ 8 := by norm_num at *; omega
      have hx8 : x < 2 ^ 8 := by norm_num at *; omega
      have := Nat.xor_lt_two_pow h8 hx8
      norm_num at this
      exact this
    simp only [List.foldl_cons]
    exact ih (a ^^^ x) hax (fun b hbm => hb b (by simp [hbm]))

/-- `chunksU16` produces `⌊length / 2⌋` values. -/
theorem chunksU16_length : ∀ l : List Nat, (chunksU16 l).length = l.length / 2
  | [] => by simp [chunksU16]
  | [_] => by simp [chunksU16]
  | _ :: _ :: r => by
    simp only [chunksU16, List.length_cons, chunksU16_length r]
    omega

/-- The `i`-th value of `chunksU16` is the little-endian 16-bit value of
bytes `2*i` and `2*i+1`, in wire order. -/
theorem chunksU16_getD : ∀ (l : List Nat) (i : Nat), 2 * i + 1 < l.length →
    (chunksU16 l).getD i 0 = u16le (l.getD (2 * i) 0) (l.getD (2 * i + 1) 0)
  | [], i, h => by simp at h
  | [_], i, h => by
    simp only [List.length_cons, List.length_nil] at h
    omega
  | x :: y :: r, 0, _ => by simp [chunksU16]
  | x :: y :: r, i + 1, h => by
    have h' : 2 * i + 1 < r.length := by simp at h; omega
    have heq : 2 * (i + 1) = 2 * i + 1 + 1 := by omega
    simp only [chunksU16, heq, List.getD_cons_succ]
    exact chunksU16_getD r i h'

/-- Unpacking a packed list of 16-bit values gives the list back. -/
theorem chunksU16_flatMap_packU16 : ∀ l : List Nat, chunksU16 (l.flatMap packU16) = l
  | [] => rfl
  | v :: r => by
    have h1 : (v :: r).flatMap packU16 = v % 256 :: (v / 256 :: r.flatMap packU16) := by
      simp [packU16]
    rw [h1]
    show u16le (v % 256) (v / 256) :: chunksU16 (r.flatMap packU16) = v :: r
    rw [chunksU16_flatMap_packU16 r]
    simp [u16le, Nat.mod_add_div]

/-- `getD` past the first part of an appended list. -/
theorem getD_append_right (l1 l2 : List Nat) (i d : Nat) (h : l1.length ≤ i) :
    (l1 ++ l2).getD i d = l2.getD (i - l1.length) d := by
  simp [List.getD, List.getElem?_append_right h]

/-- Parsing a fully buffered, correctly framed response: the reader
consumes the whole frame at once and succeeds exactly when the checksum
matches. -/
theorem read_const_frame (n cmd ck : Nat) (p : List Nat) (hn : n = p.length) :
    read_msp_response (fun _ => [36, 77, 62, n, cmd] ++ p ++ [ck]) 0 =
      if p.foldl Nat.xor (Nat.xor n cmd) = ck then (some (cmd, p), 0, 6 + n)
      else (none, 0, 6 + n) := by
  subst hn
  set L : List Nat := [36, 77, 62, p.length, cmd] ++ p ++ [ck] with hL
  have hlen : L.length = 6 + p.length := by simp [hL]; omega
  have ht1 : headerWaitT (fun _ => L) 0 = 0 :=
    waitLoop_of_avail _ 3 0 0 (by simp [availAt, hlen]; omega)
  have ht2 : sizeCmdWaitT (fun _ => L) 0 = 0 := by
    rw [sizeCmdWaitT, ht1]
    exact waitLoop_of_avail _ 2 0 0 (by simp [availAt, hlen]; omega)
  have ht3 : payloadWaitT (fun _ => L) 0 (p.length + 1) = 0 := by
    rw [payloadWaitT, ht2]
    exact waitLoop_of_avail _ (p.length + 1) 0 0 (by simp [availAt, hlen]; omega)
  have htake : L.take 3 = [36, 77, 62] := by simp [hL]
  have hget3 : L.getD 3 0 = p.length := by simp [hL, List.getD]
  have hget4 : L.getD 4 0 = cmd := by simp [hL, List.getD]
  have hdrop : L.drop 5 = p ++ [ck] := by simp [hL]
  have hpay : (L.drop 5).take p.length = p := by
    rw [hdrop]; exact List.take_left p [ck]
  have hck : L.getD (5 + p.length) 0 = ck := by
    have hsplit : L = [36, 77, 62, p.length, cmd] ++ (p ++ [ck]) := by simp [hL]
    rw [hsplit, getD_append_right _ _ _ _ (by simp)]
    have h5 : 5 + p.length - ([36, 77, 62, p.length, cmd] : List Nat).length = p.length := by
      simp
    rw [h5, getD_append_right _ _ _ _ (Nat.le_refl _)]
    simp [List.getD]
  simp only [read_msp_response, ht1, ht2, hget3, hget4, ht3, htake, hpay, hck, hlen]
  have c1 : ¬(6 + p.length < 3) := by omega
  have c2 : ¬(6 + p.length - 3 < 2) := by omega
  have c3 : ¬(6 + p.length - 5 < p.length + 1) := by omega
  by_cases hcs : p.foldl Nat.xor (Nat.xor p.length cmd) = ck
  · simp [c1, c2, c3, hcs]
  · simp [c1, c2, c3, hcs]

/-- The checksum appended by `_send_msp_request` equals the checksum the
reader recomputes (`calculated = size ^ command; for byte in payload: ...`). -/
theorem mspChecksum_eq (s c : Nat) (p : List Nat) :
    mspChecksum (s :: c :: p) = p.foldl Nat.xor (Nat.xor s c) := by
  show p.foldl Nat.xor ((0 ^^^ s) ^^^ c) = p.foldl Nat.xor (Nat.xor s c)
  rw [Nat.zero_xor]
  rfl

/-- For a byte command and a byte payload of at most 255 bytes, the
`bytes(frame)` conversion of `_send_msp_request` succeeds and the frame is
written. -/
theorem send_of_le (cmd : Nat) (p : List Nat)
    (hc : cmd < 256) (hp : ∀ x ∈ p, x < 256) (hl : p.length ≤ 255) :
    send_msp_request cmd p = some (requestFrame cmd p) := by
  have hck : mspChecksum (p.length :: cmd :: p) < 256 := by
    apply foldl_xor_lt_256
    · norm_num
    · intro y hy
      simp only [List.mem_cons] at hy
      rcases hy with h1 | h1 | h1
      · omega
      · omega
      · exact hp y h1
  have hall : ((requestFrame cmd p).all (fun x => x < 256)) = true := by
    rw [List.all_eq_true]
    intro x hx
    simp only [requestFrame, List.mem_append, List.mem_cons, List.not_mem_nil, or_false] at hx
    have hx' : x = 36 ∨ x = 77 ∨ x = 60 ∨ x = p.length ∨ x = cmd ∨ x ∈ p ∨
        x = mspChecksum (p.length :: cmd :: p) := by tauto
    simp only [decide_eq_true_eq]
    rcases hx' with h | h | h | h | h | h | h
    · omega
    · omega
    · omega
    · omega
    · omega
    · exact hp x h
    · omega
  rw [send_msp_request, if_pos hall]

/-! ### Claim theorems -/

/-- C1: for every command byte `cmd` and payload `p` with `len(p) ≤ 255`,
`_send_msp_request` emits the frame `$M< size cmd payload checksum`, and
`_read_msp_response` applied to that same byte sequence with the direction
byte `<` replaced by the response marker `>` passes the checksum check and
returns exactly `(cmd, p)` (consuming the whole frame immediately). -/
theorem msp_request_roundtrip (cmd : Nat) (p : List Nat)
    (hc : cmd < 256) (hp : ∀ x ∈ p, x < 256) (hl : p.length ≤ 255) :
    send_msp_request cmd p = some (requestFrame cmd p) ∧
    read_msp_response (fun _ => (requestFrame cmd p).set 2 62) 0 =
      (some (cmd, p), 0, 6 + p.length) := by
  refine ⟨send_of_le cmd p hc hp hl, ?_⟩
  have hset : (requestFrame cmd p).set 2 62 =
      [36, 77, 62, p.length, cmd] ++ p ++ [mspChecksum (p.length :: cmd :: p)] := by
    simp [requestFrame]
  rw [hset, read_const_frame p.length cmd _ p rfl, mspChecksum_eq, if_pos rfl]

/-- Witness for C1 at `cmd = 150`, `p = [1, 2]`. -/
theorem msp_request_roundtrip_witness :
    (150 < 256 ∧ (∀ x ∈ ([1, 2] : List Nat), x < 256) ∧ ([1, 2] : List Nat).length ≤ 255) ∧
    send_msp_request 150 [1, 2] = some (requestFrame 150 [1, 2]) ∧
    read_msp_response (fun _ => (requestFrame 150 [1, 2]).set 2 62) 0 =
      (some (150, [1, 2]), 0, 6 + ([1, 2] : List Nat).length) :=
  ⟨⟨by norm_num, by decide, by decide⟩,
    msp_request_roundtrip 150 [1, 2] (by norm_num) (by decide) (by decide)⟩

/-- C6: with byte-valued command and payload, building a request frame
fails (the `bytes(frame)` conversion raises, nothing is written) exactly
when the payload is longer than 255 bytes — the failure is distinct to the
too-large-payload contract violation, and no frame with a wrapped size
field is ever emitted; for payloads up to 255 bytes the frame is emitted. -/
theorem send_payload_too_large (cmd : Nat) (p : List Nat)
    (hc : cmd < 256) (hp : ∀ x ∈ p, x < 256) :
    (send_msp_request cmd p = none ↔ 255 < p.length) ∧
    (p.length ≤ 255 → send_msp_request cmd p = some (requestFrame cmd p)) := by
  refine ⟨⟨?_, ?_⟩, fun hl => send_of_le cmd p hc hp hl⟩
  · intro hnone
    by_contra hle
    push_neg at hle
    rw [send_of_le cmd p hc hp hle] at hnone
    exact Option.noConfusion hnone
  · intro hgt
    rw [send_msp_request, if_neg]
    intro hall
    rw [List.all_eq_true] at hall
    have hmem : p.length ∈ requestFrame cmd p := by simp [requestFrame]
    have := hall p.length hmem
    simp at this
    omega

/-- Witness for C6 at `cmd = 200` and a 256-byte payload of zeros. -/
theorem send_payload_too_large_witness :
    (200 < 256 ∧ (∀ x ∈ List.replicate 256 (0 : Nat), x < 256)) ∧
    send_msp_request 200 (List.replicate 256 0) = none :=
  ⟨⟨by norm_num, fun x hx => by rw [List.eq_of_mem_replicate hx]; norm_num⟩,
    (send_payload_too_large 200 (List.replicate 256 0) (by norm_num)
      (fun x hx => by rw [List.eq_of_mem_replicate hx]; norm_num)).1.mpr
      (by rw [List.length_replicate]; norm_num)⟩

/-- C7: flipping any single bit of a payload byte, or of the checksum
byte, of a correctly encoded response frame makes the reader's checksum
verification fail, so the reader returns `None` and the corrupted payload
is never handed to a decoder. -/
theorem msp_bitflip_detected (cmd : Nat) (p : List Nat) (i b : Nat)
    (hc : cmd < 256) (hp : ∀ x ∈ p, x < 256) (hl : p.length ≤ 255)
    (hi : i < p.length) (hb : b < 8) :
    (read_msp_response
        (fun _ => [36, 77, 62, p.length, cmd] ++ p.set i (p.getD i 0 ^^^ 2 ^ b) ++
          [p.foldl Nat.xor (Nat.xor p.length cmd)]) 0).1 = none ∧
    (read_msp_response
        (fun _ => [36, 77, 62, p.length, cmd] ++ p ++
          [p.foldl Nat.xor (Nat.xor p.length cmd) ^^^ 2 ^ b]) 0).1 = none := by
  have hpow : (2 : Nat) ^ b ≠ 0 := by positivity
  constructor
  · rw [read_const_frame p.length cmd _ _ (List.length_set p i _).symm, if_neg]
    rw [foldl_xor_set p i (Nat.xor p.length cmd) (2 ^ b) hi]
    exact xor_ne_self _ _ hpow
  · rw [read_const_frame p.length cmd _ p rfl, if_neg]
    exact (xor_ne_self _ _ hpow).symm

/-- Witness for C7 at `cmd = 150`, `p = [7]`, flipping bit 0 of byte 0. -/
theorem msp_bitflip_detected_witness :
    (150 < 256 ∧ (∀ x ∈ ([7] : List Nat), x < 256) ∧ ([7] : List Nat).length ≤ 255 ∧
      0 < ([7] : List Nat).length ∧ 0 < 8) ∧
    (read_msp_response
        (fun _ => [36, 77, 62, ([7] : List Nat).length, 150] ++
          ([7] : List Nat).set 0 (([7] : List Nat).getD 0 0 ^^^ 2 ^ 0) ++
          [([7] : List Nat).foldl Nat.xor (Nat.xor ([7] : List Nat).length 150)]) 0).1 = none ∧
    (read_msp_response
        (fun _ => [36, 77, 62, ([7] : List Nat).length, 150] ++ ([7] : List Nat) ++
          [([7] : List Nat).foldl Nat.xor (Nat.xor ([7] : List Nat).length 150) ^^^ 2 ^ 0]) 0).1 =
      none :=
  ⟨⟨by norm_num, by decide, by decide, by decide, by norm_num⟩,
    msp_bitflip_detected 150 [7] 0 0 (by norm_num) (by decide) (by decide) (by decide)
      (by norm_num)⟩

/-- The bad-header branch of the reader: consumes the 3 header bytes and
then drains every currently buffered byte before returning `None, None`. -/
theorem read_bad_header_eq (arr : Nat → List Nat) (start : Nat)
    (h3 : ¬((arr (headerWaitT arr start)).length < 3))
    (hbad : (arr (headerWaitT arr start)).take 3 ≠ [36, 77, 62]) :
    read_msp_response arr start =
      (none, headerWaitT arr start, (arr (headerWaitT arr start)).length) := by
  simp only [read_msp_response]
  rw [if_neg h3, if_pos hbad]

/-- C2: the reader's deadline is one wall-clock window: whatever the
arrival pattern, every wait stage re-checks elapsed time against the one
`start_time` taken at the beginning of the read, so the reader returns no
later than `start + 500`; and a success is only ever a complete,
checksum-valid frame that was fully buffered within that window — every
timeout returns `None` with no partial data handed to a decoder. -/
theorem msp_read_single_deadline (arr : Nat → List Nat) (start : Nat) :
    (read_msp_response arr start).2.1 ≤ start + 500 ∧
    ∀ c p, (read_msp_response arr start).1 = some (c, p) →
      ∃ t, t ≤ start + 500 ∧ 5 + p.length < (arr t).length ∧
        p = ((arr t).drop 5).take p.length ∧
        p.foldl Nat.xor (Nat.xor p.length c) = (arr t).getD (5 + p.length) 0 := by
  have h1 := headerWaitT_bounds arr start
  have h2 := sizeCmdWaitT_bounds arr start
  constructor
  · simp only [read_msp_response]
    split_ifs <;>
      first
        | exact h1.2.1
        | exact h2.2.1
        | exact (payloadWaitT_bounds arr start _).2.1
  · intro c p hcp
    simp only [read_msp_response] at hcp
    by_cases g1 : (arr (headerWaitT arr start)).length < 3
    · rw [if_pos g1] at hcp
      exact absurd hcp (by simp)
    · rw [if_neg g1] at hcp
      by_cases g2 : (arr (headerWaitT arr start)).take 3 ≠ [36, 77, 62]
      · rw [if_pos g2] at hcp
        exact absurd hcp (by simp)
      · rw [if_neg g2] at hcp
        by_cases g3 : (arr (sizeCmdWaitT arr start)).length - 3 < 2
        · rw [if_pos g3] at hcp
          exact absurd hcp (by simp)
        · rw [if_neg g3] at hcp
          set n := (arr (sizeCmdWaitT arr start)).getD 3 0 with hn
          set t3 := payloadWaitT arr start (n + 1) with ht3
          by_cases g4 : (arr t3).length - 5 < n + 1
          · rw [if_pos g4] at hcp
            exact absurd hcp (by simp)
          · rw [if_neg g4] at hcp
            by_cases g5 : (((arr t3).drop 5).take n).foldl Nat.xor
                (Nat.xor n ((arr (sizeCmdWaitT arr start)).getD 4 0)) ≠ (arr t3).getD (5 + n) 0
            · rw [if_pos g5] at hcp
              exact absurd hcp (by simp)
            · rw [if_neg g5] at hcp
              push_neg at g5
              have hx : ((arr (sizeCmdWaitT arr start)).getD 4 0,
                  ((arr t3).drop 5).take n) = (c, p) := Option.some.inj hcp
              have hc' : (arr (sizeCmdWaitT arr start)).getD 4 0 = c := congrArg Prod.fst hx
              have hp' : ((arr t3).drop 5).take n = p := congrArg Prod.snd hx
              have hplen : p.length = n := by
                rw [← hp', List.length_take, List.length_drop]
                omega
              refine ⟨t3, ?_, ?_, ?_, ?_⟩
              · rw [ht3]
                exact (payloadWaitT_bounds arr start (n + 1)).2.1
              · rw [hplen]
                omega
              · rw [hplen, hp']
              · rw [hplen, ← hc', ← hp']
                exact g5

/-- Witness for C2 on a fully buffered zero-payload frame for command 104. -/
theorem msp_read_single_deadline_witness :
    (read_msp_response (fun _ => ([36, 77, 62, 0, 104, 104] : List Nat)) 0).1 =
      some (104, ([] : List Nat)) ∧
    ∃ t, t ≤ 0 + 500 ∧
      5 + ([] : List Nat).length <
        ((fun _ => ([36, 77, 62, 0, 104, 104] : List Nat)) t : List Nat).length ∧
      ([] : List Nat) =
        (((fun _ => ([36, 77, 62, 0, 104, 104] : List Nat)) t : List Nat).drop 5).take
          ([] : List Nat).length ∧
      ([] : List Nat).foldl Nat.xor (Nat.xor ([] : List Nat).length 104) =
        ((fun _ => ([36, 77, 62, 0, 104, 104] : List Nat)) t : List Nat).getD
          (5 + ([] : List Nat).length) 0 :=
  ⟨by decide,
    (msp_read_single_deadline (fun _ => ([36, 77, 62, 0, 104, 104] : List Nat)) 0).2 104 []
      (by decide)⟩

/-- C8: whenever the 3 bytes consumed as the header are not the response
marker `$M>`, the reader reads and discards every byte currently buffered
(the consumed-byte count equals the whole arrived stream), and reports
failure (`None, None`), leaving no byte of the corrupted frame buffered. -/
theorem msp_bad_header_drains (arr : Nat → List Nat) (start : Nat)
    (h3 : 3 ≤ (arr (headerWaitT arr start)).length)
    (hbad : (arr (headerWaitT arr start)).take 3 ≠ [36, 77, 62]) :
    read_msp_response arr start =
      (none, headerWaitT arr start, (arr (headerWaitT arr start)).length) :=
  read_bad_header_eq arr start (by omega) hbad

/-- Witness for C8 on the buffered junk bytes `[1, 2, 3, 4, 5]`. -/
theorem msp_bad_header_drains_witness :
    headerWaitT (fun _ => ([1, 2, 3, 4, 5] : List Nat)) 0 = 0 ∧
    read_msp_response (fun _ => ([1, 2, 3, 4, 5] : List Nat)) 0 = (none, 0, 5) := by
  have ht : headerWaitT (fun _ => ([1, 2, 3, 4, 5] : List Nat)) 0 = 0 :=
    waitLoop_of_avail _ 3 0 0 (by simp [availAt])
  refine ⟨ht, ?_⟩
  have h := msp_bad_header_drains (fun _ => ([1, 2, 3, 4, 5] : List Nat)) 0
    (by simp) (by decide)
  rw [h, ht]
  rfl

/-- C5 counterexample: a checksum-valid response whose command (104) is
not the command just sent (150, status) surfaces from `get_status` as the
very same `None` as a total timeout with no response at all — the caller
cannot distinguish the two, contradicting the claimed discriminated
result. -/
theorem msp_errors_not_discriminated_cex :
    (read_msp_response (fun _ => ([] : List Nat)) 0).1 = none ∧
    (read_msp_response (fun _ => ([36, 77, 62, 0, 104, 104] : List Nat)) 0).1 =
      some (104, ([] : List Nat)) ∧
    get_status_from (read_msp_response (fun _ => ([] : List Nat)) 0).1 =
      get_status_from (read_msp_response (fun _ => ([36, 77, 62, 0, 104, 104] : List Nat)) 0).1 :=
  ⟨by decide, by decide, by decide⟩

/-- C5 amended: failure outcomes are not discriminated — a timeout, a
framing error and a checksum mismatch all make the reader return the same
`None, None`, and a command mismatch or truncated payload makes
`get_status` return the same `None` the caller sees when there is no
response at all; the reader performs no retry in any of these cases. -/
theorem msp_unified_failure_result :
    (read_msp_response (fun _ => ([] : List Nat)) 0).1 = none ∧
    (read_msp_response (fun _ => ([1, 2, 3] : List Nat)) 0).1 = none ∧
    (read_msp_response (fun _ => ([36, 77, 62, 0, 150, 99] : List Nat)) 0).1 = none ∧
    (∀ c d, c ≠ MSP_STATUS_EX → get_status_from (some (c, d)) = none) ∧
    (∀ d : List Nat, d.length < 15 → get_status_from (some (MSP_STATUS_EX, d)) = none) ∧
    get_status_from none = none := by
  refine ⟨by decide, by decide, by decide, ?_, ?_, rfl⟩
  · intro c d hc
    simp [get_status_from, hc]
  · intro d hd
    by_cases hde : d = []
    · simp [get_status_from, hde]
    · have h : get_status_from (some (MSP_STATUS_EX, d)) = statusDecode d := by
        simp [get_status_from, hde]
      rw [h]
      unfold statusDecode
      rw [if_pos hd]

/-- Witness for C5's amended theorem at command 104 and payload `[1]`. -/
theorem msp_unified_failure_result_witness :
    ((104 : Nat) ≠ MSP_STATUS_EX ∧ get_status_from (some (104, ([] : List Nat))) = none) ∧
    (([1] : List Nat).length < 15 ∧ get_status_from (some (MSP_STATUS_EX, [1])) = none) :=
  ⟨⟨by decide, msp_unified_failure_result.2.2.2.1 104 [] (by decide)⟩,
    ⟨by decide, msp_unified_failure_result.2.2.2.2.1 [1] (by decide)⟩⟩

/-- A 19-byte status payload whose bytes 2–3 are `0xFFFF` and whose byte 4
is 1: the code's u16 `i2c_errors` reads 65535, the claim's u32 layout
would read 131071. -/
def statusCexPayload : List Nat :=
  [0, 0, 255, 255, 1, 0, 0, 0, 0, 0, 0, 0, 0, 0, 0, 3, 0, 0, 0]

/-- C3 counterexample: the status decoder does not unpack `i2c_errors` as
a u32 — on `statusCexPayload` the code yields `i2c_errors = 65535` (the
u16 at offsets 2–3) while the claim's field widths would yield 131071. -/
theorem status_i2c_width_cex :
    (statusDecode statusCexPayload).map MspStatus.i2c_errors = some 65535 ∧
    (statusDecodeSpecLayout statusCexPayload).map MspStatus.i2c_errors = some 131071 ∧
    (65535 : Nat) ≠ 131071 :=
  ⟨by decide, by decide, by decide⟩

/-- C3 amended: the status decoder unpacks the little-endian 15-byte
prefix `cycle_time:u16, i2c_errors:u16, sensors:u32, flags:u32,
profile:u8, cpuload:u16` (struct format `<HHIIBH`); a shorter payload
fails; the trailing 4-byte `disable_flags` is read iff the length is at
least 19 and otherwise defaults to 0 with no disable reasons; a 15-byte
zero payload gives `disable_flags = 0` and no reasons, and a 19-byte
payload with trailing u32 `0b11` gives exactly `NO_GYRO` and `FAILSAFE`. -/
theorem status_decode_layout :
    (∀ d : List Nat, d.length < 15 → statusDecode d = none) ∧
    (∀ d : List Nat, 15 ≤ d.length → statusDecode d =
      some { cycle_time := u16le (d.getD 0 0) (d.getD 1 0)
             i2c_errors := u16le (d.getD 2 0) (d.getD 3 0)
             sensors := u32le (d.getD 4 0) (d.getD 5 0) (d.getD 6 0) (d.getD 7 0)
             flags := u32le (d.getD 8 0) (d.getD 9 0) (d.getD 10 0) (d.getD 11 0)
             profile := d.getD 12 0
             cpuload := u16le (d.getD 13 0) (d.getD 14 0)
             is_armed :=
               (u32le (d.getD 8 0) (d.getD 9 0) (d.getD 10 0) (d.getD 11 0)).land 1 != 0
             arming_disable_flags := if 19 ≤ d.length then
                 u32le (d.getD 15 0) (d.getD 16 0) (d.getD 17 0) (d.getD 18 0) else 0
             disable_reasons := disableReasons (if 19 ≤ d.length then
                 u32le (d.getD 15 0) (d.getD 16 0) (d.getD 17 0) (d.getD 18 0) else 0) }) ∧
    (∃ r, statusDecode (List.replicate 15 0) = some r ∧
      r.arming_disable_flags = 0 ∧ r.disable_reasons = []) ∧
    (∃ r, statusDecode (List.replicate 15 0 ++ [3, 0, 0, 0]) = some r ∧
      r.arming_disable_flags = 3 ∧ r.disable_reasons = ["NO_GYRO", "FAILSAFE"]) := by
  refine ⟨?_, ?_, ?_, ?_⟩
  · intro d hd
    unfold statusDecode
    rw [if_pos hd]
  · intro d hd
    unfold statusDecode
    rw [if_neg (by omega)]
  · exact ⟨{ cycle_time := 0, i2c_errors := 0, sensors := 0, flags := 0, profile := 0,
             cpuload := 0, is_armed := false, arming_disable_flags := 0,
             disable_reasons := [] }, by decide, rfl, rfl⟩
  · exact ⟨{ cycle_time := 0, i2c_errors := 0, sensors := 0, flags := 0, profile := 0,
             cpuload := 0, is_armed := false, arming_disable_flags := 3,
             disable_reasons := ["NO_GYRO", "FAILSAFE"] }, by decide, rfl, rfl⟩

/-- Witness for C3's amended theorem on the empty payload. -/
theorem status_decode_layout_witness :
    ([] : List Nat).length < 15 ∧ statusDecode [] = none :=
  ⟨by decide, status_decode_layout.1 [] (by decide)⟩

/-- C4 counterexample: the empty payload has even length, yet `get_motors`
rejects it (`not data` guard) instead of returning an empty list of
channel values. -/
theorem motors_empty_payload_cex :
    get_motors_from (some (MSP_MOTOR, ([] : List Nat))) = none ∧
    ([] : List Nat).length % 2 = 0 :=
  ⟨by decide, by decide⟩

/-- C4 amended: every nonempty even-length payload decodes to exactly
`len/2` little-endian u16 channel values in wire order, every odd-length
payload fails, and the empty payload is rejected as no-data (failure)
before the decoder runs. -/
theorem motors_decode_even :
    (∀ d : List Nat, d ≠ [] → d.length % 2 = 0 →
      get_motors_from (some (MSP_MOTOR, d)) = some (chunksU16 d)) ∧
    (∀ d : List Nat, d.length % 2 = 1 → get_motors_from (some (MSP_MOTOR, d)) = none) ∧
    (∀ d : List Nat, (chunksU16 d).length = d.length / 2) ∧
    (∀ (d : List Nat) (i : Nat), 2 * i + 1 < d.length →
      (chunksU16 d).getD i 0 = u16le (d.getD (2 * i) 0) (d.getD (2 * i + 1) 0)) ∧
    get_motors_from (some (MSP_MOTOR, [10, 0, 20, 0, 30, 0, 40, 0])) =
      some [10, 20, 30, 40] ∧
    get_motors_from (some (MSP_MOTOR, [1, 2, 3, 4, 5, 6, 7])) = none := by
  refine ⟨?_, ?_, chunksU16_length, chunksU16_getD, by decide, by decide⟩
  · intro d hne he
    simp [get_motors_from, hne, he]
  · intro d ho
    by_cases hne : d = []
    · rw [hne] at ho
      simp at ho
    · have h2 : ¬(d.length % 2 = 0) := by omega
      simp [get_motors_from, hne, h2]

/-- Witness for C4's amended theorem on a 4-byte payload. -/
theorem motors_decode_even_witness :
    (([10, 0, 20, 0] : List Nat) ≠ [] ∧ ([10, 0, 20, 0] : List Nat).length % 2 = 0) ∧
    get_motors_from (some (MSP_MOTOR, [10, 0, 20, 0])) = some (chunksU16 [10, 0, 20, 0]) :=
  ⟨⟨by decide, by decide⟩, motors_decode_even.1 [10, 0, 20, 0] (by decide) (by decide)⟩

/-- C9: the analog decoder needs at least 7 bytes, unpacks
`vbat:u8, power_sum:u16, rssi:u16, amperage:u16` little-endian and returns
`voltage = vbat / 10`, `rssi`, `amperage`; shorter payloads fail; the
payload `[25, 0,0, 100,0, 50,0]` decodes to voltage 2.5, rssi 100,
amperage 50. -/
theorem analog_decode_fields :
    (∀ d : List Nat, 7 ≤ d.length → get_analog_from (some (MSP_ANALOG, d)) =
      some { voltage := (d.getD 0 0 : ℚ) / 10
             rssi := u16le (d.getD 3 0) (d.getD 4 0)
             amperage := u16le (d.getD 5 0) (d.getD 6 0) }) ∧
    (∀ d : List Nat, d.length < 7 → get_analog_from (some (MSP_ANALOG, d)) = none) ∧
    get_analog_from (some (MSP_ANALOG, [25, 0, 0, 100, 0, 50, 0])) =
      some { voltage := 5 / 2, rssi := 100, amperage := 50 } := by
  refine ⟨?_, ?_, ?_⟩
  · intro d h7
    have hne : ¬(d = []) := by
      intro h
      rw [h] at h7
      simp at h7
    have hnl : ¬(d.length < 7) := by omega
    simp [get_analog_from, hne, hnl]
  · intro d h7
    by_cases hne : d = []
    · simp [get_analog_from, hne]
    · simp [get_analog_from, hne, h7]
  · simp [get_analog_from, List.getD, u16le, MspAnalog.mk.injEq]
    norm_num

/-- Witness for C9 on the 1-byte payload `[1]`. -/
theorem analog_decode_fields_witness :
    ([1] : List Nat).length < 7 ∧ get_analog_from (some (MSP_ANALOG, [1])) = none :=
  ⟨by decide, analog_decode_fields.2.1 [1] (by decide)⟩

/-- Packing a list of 16-bit values yields two bytes per value. -/
theorem length_flatMap_packU16 : ∀ l : List Nat, (l.flatMap packU16).length = 2 * l.length
  | [] => rfl
  | v :: r => by
    have h1 : (v :: r).flatMap packU16 = v % 256 :: (v / 256 :: r.flatMap packU16) := by
      simp [packU16]
    rw [h1]
    simp only [List.length_cons, length_flatMap_packU16 r]
    omega

/-- C10: `set_rc_channels` never rejects a long channel list — it silently
keeps only the first 18 values and packs exactly those as little-endian
u16s (2 bytes per channel), so values beyond index 17 are never
transmitted; for 18 or fewer channels every value is packed in order
(unpacking the payload returns the whole input list). -/
theorem rc_channels_truncate (channels : List Nat) (hv : ∀ v ∈ channels, v < 65536) :
    set_rc_channels_payload channels = some ((channels.take 18).flatMap packU16) ∧
    ((channels.take 18).flatMap packU16).length = 2 * min channels.length 18 ∧
    chunksU16 ((channels.take 18).flatMap packU16) = channels.take 18 ∧
    (channels.length ≤ 18 → chunksU16 ((channels.take 18).flatMap packU16) = channels) := by
  have harg : (if 18 < channels.length then channels.take 18 else channels) =
      channels.take 18 := by
    split_ifs with h
    · rfl
    · exact (List.take_of_length_le (by omega)).symm
  have hall : ((channels.take 18).all (fun v => v < 65536)) = true := by
    rw [List.all_eq_true]
    intro v hvmem
    simp only [decide_eq_true_eq]
    exact hv v (List.mem_of_mem_take hvmem)
  refine ⟨?_, ?_, chunksU16_flatMap_packU16 _, ?_⟩
  · rw [set_rc_channels_payload, harg, packU16s, if_pos hall]
  · rw [length_flatMap_packU16, List.length_take]
    omega
  · intro h
    rw [List.take_of_length_le h, chunksU16_flatMap_packU16]

/-- Witness for C10 on the 20-element channel list `0, 1, …, 19`. -/
theorem rc_channels_truncate_witness :
    (∀ v ∈ List.range 20, v < 65536) ∧
    set_rc_channels_payload (List.range 20) =
      some (((List.range 20).take 18).flatMap packU16) ∧
    chunksU16 (((List.range 20).take 18).flatMap packU16) = (List.range 20).take 18 :=
  ⟨fun v hv => by have := List.mem_range.mp hv; omega,
    (rc_channels_truncate (List.range 20)
      (fun v hv => by have := List.mem_range.mp hv; omega)).1,
    (rc_channels_truncate (List.range 20)
      (fun v hv => by have := List.mem_range.mp hv; omega)).2.2.1⟩

end DroneMsp
